import Mathlib

/-!
Verification development for the LegalDify document-intelligence platform.

The repository's source contains the SQL schema (`backend/init_db.sql`), the
Next.js web client (`frontend/app`), the Swift desktop client
(`client/LegalDify`, with its data models), a Chrome-extension capture tool,
and setup scripts.  The Python backend that implements the ingestion and
retrieval pipeline is not part of the source tree; where a property depends on
that missing code, the corresponding definition is modelled from the
specification and is marked `Modelled from the spec:` in its doc comment.

All string manipulation is embedded over `List Char`; JSON documents are
embedded as an inductive `Json` type with rational number literals.
-/

namespace LegalDify

/-! ## JSON values

A shallow embedding of the JSON/JavaScript values that the TypeScript client
(`frontend/app/lib/api.ts`, concatenated into `frontend/app/page.tsx`) and the
Swift client's `JSONDecoder` manipulate.  `undef` stands for JavaScript's
`undefined`, the result of reading an absent property. -/

inductive Json where
  | null
  | undef
  | bool (b : Bool)
  | num (q : ℚ)
  | str (s : String)
  | arr (elems : List Json)
  | obj (fields : List (String × Json))

namespace Json

/-- JavaScript property read `j[k]`: the first binding of `k` in an object,
`undefined` otherwise. -/
def getField : Json → String → Json
  | obj fields, k =>
    match fields.find? (fun f => f.1 = k) with
    | some f => f.2
    | none => undef
  | _, _ => undef

/-- JavaScript truthiness: `null`, `undefined`, `false`, `0` and `""` are
falsy; every other value (objects and arrays included) is truthy. -/
def truthy : Json → Bool
  | null => false
  | undef => false
  | bool b => b
  | num q => q ≠ 0
  | str s => s ≠ ""
  | arr _ => true
  | obj _ => true

/-- `Array.isArray`. -/
def isArr : Json → Bool
  | arr _ => true
  | _ => false

end Json

/-! ## C8 — `documentApi.getDocuments` response normalisation

Embedding of `frontend/app/page.tsx` lines 269–280 (the `lib/api.ts` part of
the concatenated file):

```ts
if (Array.isArray(response.data)) return response.data;
if (response.data && response.data.documents) return response.data.documents;
return [];
```
-/

/-- The body-normalisation step of `documentApi.getDocuments`, taking the
already-parsed response body (`response.data`). -/
def getDocumentsResult (data : Json) : Json :=
  if data.isArr then data
  else if data.truthy && (data.getField "documents").truthy then
    data.getField "documents"
  else Json.arr []

/-! ## Document processing status

The status vocabulary appears in `frontend/app/types/index.ts` line 8
(`'pending' | 'processing' | 'completed' | 'failed'`), in the Swift
`Document.ProcessingStatus` enum (Models, concatenated into
`start-docker.sh` lines 183–206), and as the SQL default
`processing_status VARCHAR DEFAULT 'pending'` (`backend/init_db.sql`
line 12). -/

inductive ProcessingStatus where
  | pending
  | processing
  | completed
  | failed
deriving DecidableEq, Repr

/-- Decoding of a status string, as the Swift `Codable` raw-value decoding of
`ProcessingStatus` and the TypeScript union type admit it: exactly the four
literals are accepted. -/
def parseProcessingStatus : String → Option ProcessingStatus
  | "pending" => some .pending
  | "processing" => some .processing
  | "completed" => some .completed
  | "failed" => some .failed
  | _ => none

/-- The column default of `documents.processing_status` in
`backend/init_db.sql` line 12. -/
def processingStatusDefault : String := "pending"

/-- Modelled from the spec: the ingestion-pipeline events of §4.6.  The
pipeline worker code is part of the Python backend, which is absent from the
source tree. -/
inductive IngestEvent where
  | claimWorker
  | finishSuccess
  | finishFailure (msg : String)
  | resubmit

/-- Modelled from the spec: the Document status transition function of §4.6
(`pending → processing → {completed | failed}`, with `failed` re-entering
`pending` only on explicit resubmission).  The pipeline code itself is absent
from the source tree. -/
def statusStep : ProcessingStatus → IngestEvent → Option ProcessingStatus
  | .pending, .claimWorker => some .processing
  | .processing, .finishSuccess => some .completed
  | .processing, .finishFailure _ => some .failed
  | .failed, .resubmit => some .pending
  | _, _ => none

/-- The statuses reachable from document creation: a document is created
`pending` when its upload is accepted, and evolves only by `statusStep`. -/
inductive ReachableStatus : ProcessingStatus → Prop
  | created : ReachableStatus .pending
  | step {s s' : ProcessingStatus} {e : IngestEvent} :
      ReachableStatus s → statusStep s e = some s' → ReachableStatus s'

/-! ## Swift client data model

Embedding of `struct Document` and `struct QueryResult` from the Swift
models (concatenated into `start-docker.sh` lines 170–249).  `UUID` values
are represented by their strings and `Date` values by integer timestamps. -/

structure SwiftDocument where
  id : String
  name : String
  path : String
  fileType : String
  sizeBytes : Int
  processingStatus : ProcessingStatus
  parserPluginId : Option String
  errorMessage : Option String
  createdAt : Int
  updatedAt : Int
  metadata : List (String × String)
deriving DecidableEq, Repr

/-! ## C9 — `DocumentStore.loadDocuments`

Embedding of `client/LegalDify/Presentation/ViewModels/DocumentStore.swift`
lines 29–43.  The backend fetch is a collaborator; its outcome is passed in
as an `Except` value (`.error` for a thrown Swift error, carrying
`localizedDescription`). -/

structure DocumentStoreState where
  documents : List SwiftDocument
  isLoading : Bool
  errorMessage : Option String

/-- The sort predicate of `sorted { $0.updatedAt > $1.updatedAt }`:
`a` may precede `b` exactly when `a.updatedAt ≥ b.updatedAt`. -/
def updatedAtGe (a b : SwiftDocument) : Prop := b.updatedAt ≤ a.updatedAt

instance : DecidableRel updatedAtGe :=
  fun a b => inferInstanceAs (Decidable (b.updatedAt ≤ a.updatedAt))

instance : IsTotal SwiftDocument updatedAtGe :=
  ⟨fun a b => le_total b.updatedAt a.updatedAt⟩

instance : IsTrans SwiftDocument updatedAtGe :=
  ⟨fun _ _ _ h1 h2 => le_trans h2 h1⟩

/-- `service.getAllDocuments().sorted { $0.updatedAt > $1.updatedAt }`:
a permutation of the input sorted non-increasingly by `updatedAt`
(realised here by insertion sort, matching `sorted(by:)`'s contract). -/
def sortByUpdatedAtDesc (docs : List SwiftDocument) : List SwiftDocument :=
  List.insertionSort updatedAtGe docs

/-- `DocumentStore.loadDocuments`: guards on the backend service being set,
clears `errorMessage`, then either replaces `documents` with the sorted fetch
result or records the error's description, leaving `documents` untouched. -/
def loadDocuments (hasService : Bool) (s : DocumentStoreState)
    (fetched : Except String (List SwiftDocument)) : DocumentStoreState :=
  if hasService then
    match fetched with
    | .ok docs =>
      { documents := sortByUpdatedAtDesc docs, isLoading := false,
        errorMessage := none }
    | .error msg =>
      { documents := s.documents, isLoading := false,
        errorMessage := some msg }
  else s

/-! ## C10 — Chrome-extension content extraction

Embedding of `extractPageText` from the content script
(`src/unnamed/part_000` lines 1–35).  The DOM under `document.body` is a tree
of elements and text nodes; the `TreeWalker` with `NodeFilter.SHOW_TEXT`
enumerates the text nodes in document order and applies `acceptNode` to each.
Whitespace is the ASCII portion of JavaScript's `\s` class (the same class
underlies both `trim()` and `replace(/\s+/g, ' ')`, so relative properties
are unaffected by restricting to ASCII). -/

inductive DomNode where
  | element (tagName : String) (children : List DomNode)
  | text (content : List Char)

/-- ASCII whitespace as matched by JavaScript `\s` / stripped by `trim()`. -/
def jsWhitespaceChar (c : Char) : Bool :=
  c = ' ' || c = '\t' || c = '\n' || c = '\r' || c = '\x0b' || c = '\x0c'

/-- JavaScript `String.prototype.trim`. -/
def jsTrim (l : List Char) : List Char :=
  ((l.dropWhile jsWhitespaceChar).reverse.dropWhile jsWhitespaceChar).reverse

/-- JavaScript `replace(/\s+/g, ' ')`: every maximal run of whitespace
becomes a single space. -/
def collapseWs : List Char → List Char
  | [] => []
  | c :: rest =>
    let acc := collapseWs rest
    if jsWhitespaceChar c then
      match acc with
      | [] => [' ']
      | a :: _ => if jsWhitespaceChar a then acc else ' ' :: acc
    else c :: acc

/-- The tag names rejected by `acceptNode`:
`['script', 'style', 'noscript'].includes(tagName)`. -/
def bannedParentTags : List String := ["script", "style", "noscript"]

/-- `tagName.toLowerCase()` (ASCII lowering, which is all tag names need). -/
def lowerTag (s : String) : String := String.mk (s.data.map Char.toLower)

/-- The `acceptNode` filter of the `TreeWalker`: reject text nodes whose
parent element is a script/style/noscript element (tag compared lowercased)
and text nodes whose trimmed content is empty. -/
def acceptTextNode (parentTag : String) (content : List Char) : Bool :=
  !(bannedParentTags.contains (lowerTag parentTag)) &&
    !(jsTrim content).isEmpty

/-- The text nodes below a node in document order, each paired with the tag
name of its parent element (`node.parentElement.tagName`); `parentTag` is the
tag of the node's own parent. -/
def domTextNodes (parentTag : String) : DomNode → List (String × List Char)
  | .text s => [(parentTag, s)]
  | .element _ [] => []
  | .element t (c :: cs) =>
    domTextNodes t c ++ domTextNodes parentTag (.element t cs)
termination_by n => sizeOf n

/-- `extractPageText`: walk the text nodes under `document.body`, keep those
the filter accepts, push each node's trimmed text, then
`join(' ').replace(/\s+/g, ' ').trim()`.  (`document.body` itself is an
element, so the parent tag `"BODY"` passed for the root is never consulted.) -/
def extractPageText (body : DomNode) : List Char :=
  let pairs := domTextNodes "BODY" body
  let kept := (pairs.filter (fun p => acceptTextNode p.1 p.2)).map
    (fun p => jsTrim p.2)
  jsTrim (collapseWs (List.intercalate [' '] kept))

/-! ## C2 — the Swift `QueryResult` and its JSON decoding

Embedding of `struct QueryResult` / `struct Source` and their `CodingKeys`
(Models, concatenated into `start-docker.sh` lines 219–249), together with
the `JSONDecoder().decode(QueryResult.self, from: data)` call of
`BackendService.queryDocuments` (`DocumentStore.swift` lines 235–257).
`UUID` values are represented by their strings, `Double` by `ℚ`. -/

structure SwiftSource where
  documentId : String
  documentName : String
  pageNumber : Option Int
  relevanceScore : ℚ
  excerpt : Option String
deriving DecidableEq, Repr

structure SwiftQueryResult where
  answer : String
  sources : List SwiftSource
  query : String
  processingTimeMs : ℚ
deriving DecidableEq, Repr

/-- Decoding a required `String` field value. -/
def decodeString : Json → Option String
  | .str s => some s
  | _ => none

/-- Decoding a required numeric field value. -/
def decodeRat : Json → Option ℚ
  | .num q => some q
  | _ => none

/-- Decoding an optional `Int` field value (`decodeIfPresent`): an absent or
null field is `none`; a present field must be an integral number. -/
def decodeOptInt : Json → Option (Option Int)
  | .undef => some none
  | .null => some none
  | .num q => if q.den = 1 then some (some q.num) else none
  | _ => none

/-- Decoding an optional `String` field value (`decodeIfPresent`). -/
def decodeOptString : Json → Option (Option String)
  | .undef => some none
  | .null => some none
  | .str s => some (some s)
  | _ => none

/-- Decoding one element of the `sources` array, per `Source.CodingKeys`
(`document_id`, `document_name`, `page_number`, `relevance_score`,
`excerpt`). -/
def decodeSwiftSource (j : Json) : Option SwiftSource := do
  let documentId ← decodeString (j.getField "document_id")
  let documentName ← decodeString (j.getField "document_name")
  let pageNumber ← decodeOptInt (j.getField "page_number")
  let relevanceScore ← decodeRat (j.getField "relevance_score")
  let excerpt ← decodeOptString (j.getField "excerpt")
  pure { documentId, documentName, pageNumber, relevanceScore, excerpt }

/-- Decoding the `sources` field value: a JSON array each of whose elements
decodes as a `Source`. -/
def decodeSourcesField : Json → Option (List SwiftSource)
  | .arr xs => xs.mapM decodeSwiftSource
  | _ => none

/-- Decoding a `QueryResult` response body, per `QueryResult.CodingKeys`
(`answer`, `sources`, `query`, `processing_time_ms`). -/
def decodeSwiftQueryResult (j : Json) : Option SwiftQueryResult := do
  let answer ← decodeString (j.getField "answer")
  let sources ← decodeSourcesField (j.getField "sources")
  let query ← decodeString (j.getField "query")
  let processingTimeMs ← decodeRat (j.getField "processing_time_ms")
  pure { answer, sources, query, processingTimeMs }

/-! ## C3 — Chunker

Modelled from the spec: the Chunker (§4.3) belongs to the Python backend,
which is absent from the source tree; only its configuration defaults
(`CHUNK_SIZE=1000`, `CHUNK_OVERLAP=200`, written by the setup script
`src/unnamed/part_011` lines 81–84) are in the source.  The model is the
character sliding window `split(text, chunkSize, overlap)`: windows of
`chunkSize` characters whose starts advance by `chunkSize - overlap`.
(The spec's word-boundary adjustment is not modelled; scenario A's expected
six chunks with exact 200-character overlaps are those of the plain
character window.) -/

def splitChunksGo (t : List Char) (size step : Nat) (hstep : 0 < step)
    (start : Nat) : List (List Char) :=
  if start < t.length then
    ((t.drop start).take size) :: splitChunksGo t size step hstep (start + step)
  else []
termination_by t.length - start
decreasing_by omega

/-- Modelled from the spec: `Chunker.split(text, chunkSize, overlap)`;
`overlap < chunkSize` is required, violated configurations fail with
`InvalidChunkConfig` (§4.3). -/
def splitChunks (t : List Char) (size overlap : Nat) :
    Except String (List (List Char)) :=
  if h : overlap < size then
    .ok (splitChunksGo t size (size - overlap) (by omega) 0)
  else .error "InvalidChunkConfig"

/-- `CHUNK_SIZE=1000` from the backend configuration defaults
(`src/unnamed/part_011` line 82). -/
def chunkSizeDefault : Nat := 1000

/-- `CHUNK_OVERLAP=200` from the backend configuration defaults
(`src/unnamed/part_011` line 83). -/
def chunkOverlapDefault : Nat := 200

/-- Modelled from the spec: the ingestion pipeline (§4.6) applied to a
plain-text document with the default chunk configuration, with the embedding
and indexing collaborators succeeding (scenario A).  Parsing plain text is
the identity; on success every chunk is indexed and the document is
`completed`; a chunking error makes it `failed` with nothing indexed. -/
def ingestPlainText (t : List Char) : ProcessingStatus × List (List Char) :=
  match splitChunks t chunkSizeDefault chunkOverlapDefault with
  | .ok cs => (.completed, cs)
  | .error _ => (.failed, [])

/-! ## C4 / C7 — VectorIndex search and the query pipeline

Modelled from the spec: `VectorIndex.search` (§4.5), `RetrievalEngine`
(§4.7) and `AnswerComposer` (§4.8) belong to the Python backend, which is
absent from the source tree; the clients only transmit `query`/`top_k`
(`BackendService.queryDocuments`, `ApiClient.searchDocuments`).  Similarity
is the inner product over rational vectors; results are ordered
highest-similarity first, ties broken by lower chunk index then lower
document ID. -/

/-- Modelled from the spec: a chunk reference — owning document ID and
zero-based chunk index (§3). -/
structure ChunkRef where
  docId : Nat
  chunkIndex : Nat
deriving DecidableEq, Repr

/-- Modelled from the spec: a VectorIndex entry — chunk reference, embedding
vector, text span and optional source page (§3, §4.5). -/
structure IndexedChunk where
  ref : ChunkRef
  vec : List ℚ
  text : List Char
  page : Option Nat
deriving DecidableEq, Repr

/-- Modelled from the spec: the inner-product similarity metric of
`VectorIndex.search` (§4.5). -/
def dotProduct (a b : List ℚ) : ℚ := (List.zipWith (· * ·) a b).sum

/-- Modelled from the spec: the result ordering of `VectorIndex.search` —
higher score first; on equal scores lower chunk index first, then lower
document ID (§4.5, §8). -/
def searchOrder (a b : ChunkRef × ℚ) : Prop :=
  b.2 < a.2 ∨ (a.2 = b.2 ∧ (a.1.chunkIndex < b.1.chunkIndex ∨
    (a.1.chunkIndex = b.1.chunkIndex ∧ a.1.docId ≤ b.1.docId)))

instance : DecidableRel searchOrder := fun a b =>
  inferInstanceAs (Decidable (b.2 < a.2 ∨ (a.2 = b.2 ∧
    (a.1.chunkIndex < b.1.chunkIndex ∨
      (a.1.chunkIndex = b.1.chunkIndex ∧ a.1.docId ≤ b.1.docId)))))

instance : IsTotal (ChunkRef × ℚ) searchOrder :=
  ⟨fun a b => by
    unfold searchOrder
    rcases lt_trichotomy a.2 b.2 with h | h | h
    · exact Or.inr (Or.inl h)
    · rcases Nat.lt_trichotomy a.1.chunkIndex b.1.chunkIndex with hi | hi | hi
      · exact Or.inl (Or.inr ⟨h, Or.inl hi⟩)
      · rcases Nat.le_total a.1.docId b.1.docId with hd | hd
        · exact Or.inl (Or.inr ⟨h, Or.inr ⟨hi, hd⟩⟩)
        · exact Or.inr (Or.inr ⟨h.symm, Or.inr ⟨hi.symm, hd⟩⟩)
      · exact Or.inr (Or.inr ⟨h.symm, Or.inl hi⟩)
    · exact Or.inl (Or.inl h)⟩

instance : IsTrans (ChunkRef × ℚ) searchOrder :=
  ⟨fun a b c hab hbc => by
    unfold searchOrder at *
    rcases hab with h1 | ⟨e1, h1⟩ <;> rcases hbc with h2 | ⟨e2, h2⟩
    · exact Or.inl (lt_trans h2 h1)
    · exact Or.inl (e2 ▸ h1)
    · exact Or.inl (e1 ▸ h2)
    · refine Or.inr ⟨e1.trans e2, ?_⟩
      rcases h1 with h1 | ⟨e3, h1⟩ <;> rcases h2 with h2 | ⟨e4, h2⟩
      · exact Or.inl (lt_trans h1 h2)
      · exact Or.inl (e4 ▸ h1)
      · exact Or.inl (e3 ▸ h2)
      · exact Or.inr ⟨e3.trans e4, le_trans h1 h2⟩⟩

/-- Modelled from the spec: `VectorIndex.search(queryVector, topK,
documentIdFilter?)` (§4.5): score the eligible chunks, order them by
`searchOrder`, return the first `topK`. -/
def vectorSearch (qv : List ℚ) (topK : Nat) (docFilter : Option (List Nat))
    (store : List IndexedChunk) : List (ChunkRef × ℚ) :=
  let eligible : List IndexedChunk :=
    match docFilter with
    | some ids => store.filter (fun c => ids.contains c.ref.docId)
    | none => store
  let scored := eligible.map (fun c => (c.ref, dotProduct qv c.vec))
  (List.insertionSort searchOrder scored).take topK

/-- Modelled from the spec: a `Source` record of a `QueryResult` (§3):
document ID, document name, optional page number, relevance score, optional
excerpt. -/
structure SourceRecord where
  documentId : Nat
  documentName : String
  pageNumber : Option Nat
  relevanceScore : ℚ
  excerpt : Option String
deriving DecidableEq, Repr

/-- Modelled from the spec: the ephemeral `QueryResult` (§3). -/
structure QueryResultModel where
  query : String
  answer : String
  sources : List SourceRecord
  processingTimeMs : ℚ
deriving DecidableEq, Repr

/-- Modelled from the spec: hit resolution in `RetrievalEngine.retrieve`
(§4.7) — for each `(chunkRef, score)` hit, resolve the chunk's text and
document metadata from the stores. -/
def resolveSource (store : List IndexedChunk) (names : Nat → String)
    (hit : ChunkRef × ℚ) : SourceRecord :=
  { documentId := hit.1.docId
    documentName := names hit.1.docId
    pageNumber := (store.find? (fun c => c.ref == hit.1)).bind
      (fun (c : IndexedChunk) => c.page)
    relevanceScore := hit.2
    excerpt := (store.find? (fun c => c.ref == hit.1)).map
      (fun (c : IndexedChunk) => String.mk c.text) }

/-- Modelled from the spec: `RetrievalEngine.retrieve(query, topK,
documentIdFilter?)` with the query already embedded (§4.7); default
behavior returns the raw ranked hits. -/
def retrieve (qv : List ℚ) (topK : Nat) (docFilter : Option (List Nat))
    (store : List IndexedChunk) (names : Nat → String) : List SourceRecord :=
  (vectorSearch qv topK docFilter store).map (resolveSource store names)

/-! ## C5 — AnswerComposer

Modelled from the spec: `AnswerComposer.compose(query, sources)` (§4.8) is
backend code absent from the source tree.  The LLM collaborator is a
function from the prompt to either an answer or an error; an LLM failure
fails the whole query with the same error. -/

/-- Modelled from the spec: the LLM collaborator failures surfaced by
`AnswerComposer` (`LLMUnavailable`, `LLMTimeout`, §4.8). -/
inductive LlmError where
  | unavailable
  | timeout
deriving DecidableEq, Repr

/-- Modelled from the spec: the context string assembled from the ranked
sources. -/
def contextOf (sources : List SourceRecord) : String :=
  String.intercalate " " (sources.map (fun s => s.excerpt.getD ""))

/-- Modelled from the spec: the templated prompt used when sources exist. -/
def standardPrompt (q ctx : String) : String :=
  "Answer the question using only the context. Context: " ++ ctx ++
    " Question: " ++ q

/-- Modelled from the spec: the degraded prompt variant used when `sources`
is empty — it instructs the model to say it has no relevant information. -/
def degradedPrompt (q : String) : String :=
  "There is no relevant information for this question; " ++
    "say that you have no relevant information. Question: " ++ q

/-- Modelled from the spec: `AnswerComposer.compose(query, sources)` (§4.8).
With empty `sources` the degraded prompt variant is used; an LLM failure
fails the whole query with the same error, never a silent empty answer. -/
def compose (llm : String → Except LlmError String) (q : String)
    (sources : List SourceRecord) (latencyMs : ℚ) :
    Except LlmError QueryResultModel :=
  let prompt :=
    if sources.isEmpty then degradedPrompt q
    else standardPrompt q (contextOf sources)
  match llm prompt with
  | .ok ans =>
    .ok { query := q, answer := ans, sources := sources,
          processingTimeMs := latencyMs }
  | .error e => .error e

/-- Modelled from the spec: the `query(queryText, topK, documentIdFilter?)`
operation (§6), with the query text already embedded as `qv`:
retrieve the ranked sources, then compose the answer. -/
def queryCall (llm : String → Except LlmError String) (q : String)
    (qv : List ℚ) (topK : Nat) (docFilter : Option (List Nat))
    (store : List IndexedChunk) (names : Nat → String) (latencyMs : ℚ) :
    Except LlmError QueryResultModel :=
  compose llm q (retrieve qv topK docFilter store names) latencyMs

/-! ## C6 — ingestion failure recording and polling

The `documents` table (`backend/init_db.sql` lines 5–19) stores
`processing_status` and `error_message`; the detail view
(`frontend/app/page.tsx` lines 804–810) renders the stored error message.
The recording step itself runs in the backend pipeline, absent from the
source tree, and is modelled from §4.6/§7. -/

structure DocumentRecord where
  id : String
  name : String
  path : String
  contentHash : String
  fileType : String
  sizeBytes : Int
  processingStatus : ProcessingStatus
  parserPluginId : Option String
  errorMessage : Option String
  createdAt : Int
  updatedAt : Int
  rawText : Option String
deriving DecidableEq, Repr

/-- Modelled from the spec: `processing → failed` on a non-retriable error
records the triggering error message on the Document (§4.6 transition 4). -/
def recordIngestionFailure (d : DocumentRecord) (msg : String) (now : Int) :
    DocumentRecord :=
  { d with processingStatus := .failed, errorMessage := some msg,
           updatedAt := now }

/-- Modelled from the spec: `getDocument(id)` (§6) as the polling callers
consume it — the stored record is returned whatever its `processing_status`;
only a missing ID is an error, so ingestion errors are never rethrown at the
poller. -/
def getDocument (store : List DocumentRecord) (id : String) :
    Except String DocumentRecord :=
  match store.find? (fun d => d.id == id) with
  | some d => .ok d
  | none => .error "Document not found"

/-- The error box of the web detail view (`frontend/app/page.tsx` lines
804–810): rendered exactly when `document.error_message` is truthy. -/
def showsErrorBox (d : DocumentRecord) : Bool :=
  match d.errorMessage with
  | some m => m ≠ ""
  | none => false

/-! # Theorems -/

/-- C8 counterexample: on the body `{"documents": 5}` the
`documentApi.getDocuments` normalisation returns the number `5`, which is not
an array — refuting "it never returns a non-array value": the `documents`
field is returned as-is whenever it is truthy, array or not. -/
theorem c8_counterexample :
    getDocumentsResult (Json.obj [("documents", Json.num 5)]) = Json.num 5 ∧
    (Json.num 5).isArr = false := by
  constructor
  · rfl
  · rfl

/-- C8 (amended): `documentApi.getDocuments` returns the body itself when it
is an array; otherwise, when the body and its `documents` field are both
truthy, it returns that field's value as-is (which need not be an array);
otherwise it returns the empty array.  In particular, whenever the
`documents` field is an array, the returned value is an array. -/
theorem c8_getDocuments :
    (∀ data : Json,
      (data.isArr = true ∧ getDocumentsResult data = data) ∨
      (data.isArr = false ∧ data.truthy = true ∧
        (data.getField "documents").truthy = true ∧
        getDocumentsResult data = data.getField "documents") ∨
      (data.isArr = false ∧
        (data.truthy = false ∨ (data.getField "documents").truthy = false) ∧
        getDocumentsResult data = Json.arr [])) ∧
    (∀ data : Json, (data.getField "documents").isArr = true →
      (getDocumentsResult data).isArr = true) := by
  constructor
  · intro data
    rcases h1 : data.isArr with _ | _
    · rcases h2 : data.truthy with _ | _
      · exact Or.inr (Or.inr ⟨rfl, Or.inl rfl, by
          simp [getDocumentsResult, h1, h2]⟩)
      · rcases h3 : (data.getField "documents").truthy with _ | _
        · exact Or.inr (Or.inr ⟨rfl, Or.inr rfl, by
            simp [getDocumentsResult, h1, h2, h3]⟩)
        · exact Or.inr (Or.inl ⟨rfl, rfl, rfl, by
            simp [getDocumentsResult, h1, h2, h3]⟩)
    · exact Or.inl ⟨rfl, by simp [getDocumentsResult, h1]⟩
  · intro data h
    cases data with
    | arr elems => simp [getDocumentsResult, Json.isArr]
    | obj fields =>
      rcases hg : Json.getField (Json.obj fields) "documents" with
        _ | _ | b | q | s | elems | fs <;> rw [hg] at h <;>
        simp [Json.isArr] at h
      simp [getDocumentsResult, Json.isArr, Json.truthy, hg]
    | null => rw [show Json.getField Json.null "documents" = Json.undef from
        rfl] at h; simp [Json.isArr] at h
    | undef => rw [show Json.getField Json.undef "documents" = Json.undef from
        rfl] at h; simp [Json.isArr] at h
    | bool b => rw [show ∀ b, Json.getField (Json.bool b) "documents" =
        Json.undef from fun _ => rfl] at h; simp [Json.isArr] at h
    | num q => rw [show ∀ q, Json.getField (Json.num q) "documents" =
        Json.undef from fun _ => rfl] at h; simp [Json.isArr] at h
    | str s => rw [show ∀ s, Json.getField (Json.str s) "documents" =
        Json.undef from fun _ => rfl] at h; simp [Json.isArr] at h

/-- C8 witness: a concrete body whose `documents` field is an array yields an
array. -/
theorem c8_witness :
    (getDocumentsResult
      (Json.obj [("documents", Json.arr [Json.str "d1"])])).isArr = true :=
  c8_getDocuments.2 (Json.obj [("documents", Json.arr [Json.str "d1"])]) rfl

/-- C9: `DocumentStore.loadDocuments` — when the fetch throws, the store's
`documents` list is left exactly as it was and `errorMessage` becomes the
error's description; on success `documents` is replaced by a permutation of
the fetched list that is non-increasing in `updatedAt`, and `errorMessage` is
cleared. -/
theorem c9_loadDocuments (s : DocumentStoreState)
    (fetched : Except String (List SwiftDocument)) :
    (∀ msg, fetched = .error msg →
      (loadDocuments true s fetched).documents = s.documents ∧
      (loadDocuments true s fetched).errorMessage = some msg) ∧
    (∀ docs, fetched = .ok docs →
      (loadDocuments true s fetched).documents.Perm docs ∧
      List.Pairwise (fun a b => b.updatedAt ≤ a.updatedAt)
        (loadDocuments true s fetched).documents ∧
      (loadDocuments true s fetched).errorMessage = none) := by
  constructor
  · rintro msg rfl
    exact ⟨rfl, rfl⟩
  · rintro docs rfl
    refine ⟨List.perm_insertionSort updatedAtGe docs, ?_, rfl⟩
    exact List.sorted_insertionSort updatedAtGe docs

/-- C9 witness: a concrete failing fetch leaves the document list untouched
and records the message. -/
theorem c9_witness :
    (loadDocuments true
      { documents := [], isLoading := false, errorMessage := none }
      (.error "network down")).documents = [] ∧
    (loadDocuments true
      { documents := [], isLoading := false, errorMessage := none }
      (.error "network down")).errorMessage = some "network down" :=
  (c9_loadDocuments
    { documents := [], isLoading := false, errorMessage := none }
    (.error "network down")).1 "network down" rfl

/-- C1: every reachable Document status is one of the four declared statuses;
the status string vocabulary accepted by the clients is exactly
`pending`/`processing`/`completed`/`failed`; a document is created with the
schema default `pending`; and the transition function moves only along
`pending → processing`, `processing → completed`, `processing → failed`, and
`failed → pending`, the last only on an explicit resubmission event. -/
theorem c1_status_state_machine :
    (∀ s, ReachableStatus s →
      s = ProcessingStatus.pending ∨ s = ProcessingStatus.processing ∨
      s = ProcessingStatus.completed ∨ s = ProcessingStatus.failed) ∧
    parseProcessingStatus processingStatusDefault =
      some ProcessingStatus.pending ∧
    (∀ s : String, (parseProcessingStatus s).isSome = true ↔
      s = "pending" ∨ s = "processing" ∨ s = "completed" ∨ s = "failed") ∧
    (∀ s e s', statusStep s e = some s' →
      (s = ProcessingStatus.pending ∧ s' = ProcessingStatus.processing) ∨
      (s = ProcessingStatus.processing ∧ s' = ProcessingStatus.completed) ∨
      (s = ProcessingStatus.processing ∧ s' = ProcessingStatus.failed) ∨
      (s = ProcessingStatus.failed ∧ s' = ProcessingStatus.pending ∧
        e = IngestEvent.resubmit)) := by
  refine ⟨?_, rfl, ?_, ?_⟩
  · intro s _
    cases s
    · exact Or.inl rfl
    · exact Or.inr (Or.inl rfl)
    · exact Or.inr (Or.inr (Or.inl rfl))
    · exact Or.inr (Or.inr (Or.inr rfl))
  · intro s
    constructor
    · intro h
      unfold parseProcessingStatus at h
      split at h <;> simp_all
    · rintro (rfl | rfl | rfl | rfl) <;> rfl
  · intro s e s' h
    cases s <;> cases e <;> simp_all [statusStep]

/-- C1 witness: `processing` is reachable (created `pending`, then claimed),
and the claim transition is among the allowed edges. -/
theorem c1_witness :
    (ProcessingStatus.processing = ProcessingStatus.pending ∨
      ProcessingStatus.processing = ProcessingStatus.processing ∨
      ProcessingStatus.processing = ProcessingStatus.completed ∨
      ProcessingStatus.processing = ProcessingStatus.failed) ∧
    ((ProcessingStatus.pending = ProcessingStatus.pending ∧
        ProcessingStatus.processing = ProcessingStatus.processing) ∨
      (ProcessingStatus.pending = ProcessingStatus.processing ∧
        ProcessingStatus.processing = ProcessingStatus.completed) ∨
      (ProcessingStatus.pending = ProcessingStatus.processing ∧
        ProcessingStatus.processing = ProcessingStatus.failed) ∨
      (ProcessingStatus.pending = ProcessingStatus.failed ∧
        ProcessingStatus.processing = ProcessingStatus.pending ∧
        IngestEvent.claimWorker = IngestEvent.resubmit)) :=
  ⟨c1_status_state_machine.1 ProcessingStatus.processing
      (ReachableStatus.step (e := IngestEvent.claimWorker)
        ReachableStatus.created rfl),
    c1_status_state_machine.2.2.2 ProcessingStatus.pending
      IngestEvent.claimWorker ProcessingStatus.processing rfl⟩

/-- C6: recording a non-retriable ingestion failure marks the document
`failed` and stores the triggering message; a polling `getDocument` then
returns the failed record (with its status and message) as a successful
result instead of raising, and the web detail view renders the stored
message. -/
theorem c6_failure_recorded (preceding following : List DocumentRecord)
    (d : DocumentRecord) (msg : String) (now : Int)
    (hfresh : ∀ x ∈ preceding, (x.id == d.id) = false) :
    (recordIngestionFailure d msg now).processingStatus =
      ProcessingStatus.failed ∧
    (recordIngestionFailure d msg now).errorMessage = some msg ∧
    getDocument (preceding ++ recordIngestionFailure d msg now :: following)
      d.id = Except.ok (recordIngestionFailure d msg now) ∧
    (msg ≠ "" → showsErrorBox (recordIngestionFailure d msg now) = true) := by
  refine ⟨rfl, rfl, ?_, ?_⟩
  · unfold getDocument
    rw [List.find?_append]
    have h1 : preceding.find? (fun x => x.id == d.id) = none :=
      List.find?_eq_none.mpr (by simpa using hfresh)
    have h2 : ((recordIngestionFailure d msg now) :: following).find?
        (fun x => x.id == d.id) = some (recordIngestionFailure d msg now) :=
      List.find?_cons_of_pos _ (by simp [recordIngestionFailure])
    rw [h1, h2]
    rfl
  · intro hmsg
    simp [showsErrorBox, recordIngestionFailure, hmsg]

/-- C6 witness: a concrete parse failure is recorded and returned to the
poller. -/
theorem c6_witness :
    (recordIngestionFailure
        { id := "doc-1", name := "a.pdf", path := "/u/a.pdf",
          contentHash := "h", fileType := "pdf", sizeBytes := 10,
          processingStatus := ProcessingStatus.processing,
          parserPluginId := none, errorMessage := none, createdAt := 0,
          updatedAt := 0, rawText := none }
        "ParseFailure: corrupt header" 7).processingStatus =
      ProcessingStatus.failed ∧
    getDocument
      [recordIngestionFailure
        { id := "doc-1", name := "a.pdf", path := "/u/a.pdf",
          contentHash := "h", fileType := "pdf", sizeBytes := 10,
          processingStatus := ProcessingStatus.processing,
          parserPluginId := none, errorMessage := none, createdAt := 0,
          updatedAt := 0, rawText := none }
        "ParseFailure: corrupt header" 7] "doc-1" =
      Except.ok (recordIngestionFailure
        { id := "doc-1", name := "a.pdf", path := "/u/a.pdf",
          contentHash := "h", fileType := "pdf", sizeBytes := 10,
          processingStatus := ProcessingStatus.processing,
          parserPluginId := none, errorMessage := none, createdAt := 0,
          updatedAt := 0, rawText := none }
        "ParseFailure: corrupt header" 7) ∧
    showsErrorBox (recordIngestionFailure
        { id := "doc-1", name := "a.pdf", path := "/u/a.pdf",
          contentHash := "h", fileType := "pdf", sizeBytes := 10,
          processingStatus := ProcessingStatus.processing,
          parserPluginId := none, errorMessage := none, createdAt := 0,
          updatedAt := 0, rawText := none }
        "ParseFailure: corrupt header" 7) = true := by
  have h := c6_failure_recorded []
    []
    { id := "doc-1", name := "a.pdf", path := "/u/a.pdf",
      contentHash := "h", fileType := "pdf", sizeBytes := 10,
      processingStatus := ProcessingStatus.processing,
      parserPluginId := none, errorMessage := none, createdAt := 0,
      updatedAt := 0, rawText := none }
    "ParseFailure: corrupt header" 7 (by intro x hx; simp at hx)
  exact ⟨h.1, h.2.2.1, h.2.2.2 (by decide)⟩

theorem decodeString_eq_some {v : Json} {s : String}
    (h : decodeString v = some s) : v = Json.str s := by
  cases v <;> simp [decodeString] at h
  rw [h]

theorem decodeRat_eq_some {v : Json} {q : ℚ}
    (h : decodeRat v = some q) : v = Json.num q := by
  cases v <;> simp [decodeRat] at h
  rw [h]

theorem decodeSourcesField_eq_some {v : Json} {ys : List SwiftSource}
    (h : decodeSourcesField v = some ys) :
    ∃ xs, v = Json.arr xs ∧ xs.mapM decodeSwiftSource = some ys := by
  cases v <;> simp [decodeSourcesField] at h
  case arr xs => exact ⟨xs, rfl, h⟩

theorem length_of_mapM_eq_some {α β : Type} (f : α → Option β) :
    ∀ (xs : List α) (ys : List β), xs.mapM f = some ys →
      ys.length = xs.length
  | [], ys, h => by
    simp only [List.mapM_nil, pure, Option.some.injEq] at h
    simp [← h]
  | x :: xs, ys, h => by
    simp only [List.mapM_cons] at h
    cases hx : f x with
    | none => rw [hx] at h; simp at h
    | some b =>
      rw [hx] at h
      cases hxs : xs.mapM f with
      | none => rw [hxs] at h; simp at h
      | some bs =>
        rw [hxs] at h
        simp at h
        rw [← h]
        simp [length_of_mapM_eq_some f xs bs hxs]

/-- C5 counterexample: the decoded query-response structure carries no
`hasSources`-style flag — a response body marked `"has_sources": false`
decodes to exactly the same `QueryResult` value as the same body without the
flag, whose only trace of the no-sources case is the empty `sources` array. -/
theorem c5_counterexample :
    decodeSwiftQueryResult (Json.obj
      [("answer", Json.str "I have no relevant information."),
       ("sources", Json.arr []), ("query", Json.str "q1"),
       ("processing_time_ms", Json.num 3),
       ("has_sources", Json.bool false)]) =
      decodeSwiftQueryResult (Json.obj
        [("answer", Json.str "I have no relevant information."),
         ("sources", Json.arr []), ("query", Json.str "q1"),
         ("processing_time_ms", Json.num 3)]) ∧
    decodeSwiftQueryResult (Json.obj
      [("answer", Json.str "I have no relevant information."),
       ("sources", Json.arr []), ("query", Json.str "q1"),
       ("processing_time_ms", Json.num 3),
       ("has_sources", Json.bool false)]) =
      some { answer := "I have no relevant information.", sources := [],
             query := "q1", processingTimeMs := 3 } := by
  constructor <;> rfl

/-- C5 (amended): `compose` with an empty sources list builds the query from
the degraded no-information prompt and returns a successful `QueryResult`
with an empty sources array, while an LLM failure surfaces as the same error
— the two cases are distinguished by success versus error, not by any
`hasSources`-style flag (the response structure has none). -/
theorem c5_compose_empty_sources :
    (∀ (answerOf : String → String) (q : String) (latencyMs : ℚ),
      compose (fun p => Except.ok (answerOf p)) q [] latencyMs =
        Except.ok { query := q, answer := answerOf (degradedPrompt q),
                    sources := [], processingTimeMs := latencyMs }) ∧
    (∀ (e : LlmError) (q : String) (latencyMs : ℚ),
      compose (fun _ => Except.error e) q [] latencyMs = Except.error e) := by
  exact ⟨fun _ _ _ => rfl, fun _ _ _ => rfl⟩

/-- C2: whenever the Swift client's decoding of a query response succeeds,
the produced `QueryResult` carries the original query text, the answer text,
the total processing latency, and one `Source` per element of the body's
`sources` array in order — each source, by construction of the decoded
record, carrying a document ID, a document name, an optional page number, a
relevance score, and an optional excerpt. -/
theorem c2_queryResult_decode (j : Json) (r : SwiftQueryResult)
    (h : decodeSwiftQueryResult j = some r) :
    j.getField "query" = Json.str r.query ∧
    j.getField "answer" = Json.str r.answer ∧
    j.getField "processing_time_ms" = Json.num r.processingTimeMs ∧
    ∃ xs, j.getField "sources" = Json.arr xs ∧
      xs.mapM decodeSwiftSource = some r.sources ∧
      r.sources.length = xs.length := by
  unfold decodeSwiftQueryResult at h
  cases hA : decodeString (j.getField "answer") with
  | none => rw [hA] at h; simp at h
  | some answer =>
    rw [hA] at h
    cases hS : decodeSourcesField (j.getField "sources") with
    | none => rw [hS] at h; simp at h
    | some sources =>
      rw [hS] at h
      cases hQ : decodeString (j.getField "query") with
      | none => rw [hQ] at h; simp at h
      | some query =>
        rw [hQ] at h
        cases hT : decodeRat (j.getField "processing_time_ms") with
        | none => rw [hT] at h; simp at h
        | some t =>
          rw [hT] at h
          simp at h
          obtain ⟨xs, hxs, hM⟩ := decodeSourcesField_eq_some hS
          subst h
          exact ⟨decodeString_eq_some hQ, decodeString_eq_some hA,
            decodeRat_eq_some hT, xs, hxs, hM,
            length_of_mapM_eq_some decodeSwiftSource xs sources hM⟩

/-- C2 witness: a concrete successful response body decodes to a result
carrying the query, answer, latency, and one source per array element. -/
theorem c2_witness :
    Json.getField (Json.obj
      [("answer", Json.str "ans"),
       ("sources", Json.arr [Json.obj
         [("document_id", Json.str "u-1"),
          ("document_name", Json.str "contract.pdf"),
          ("page_number", Json.num 2),
          ("relevance_score", Json.num 1)]]),
       ("query", Json.str "what"),
       ("processing_time_ms", Json.num 12)]) "query" = Json.str "what" ∧
    Json.getField (Json.obj
      [("answer", Json.str "ans"),
       ("sources", Json.arr [Json.obj
         [("document_id", Json.str "u-1"),
          ("document_name", Json.str "contract.pdf"),
          ("page_number", Json.num 2),
          ("relevance_score", Json.num 1)]]),
       ("query", Json.str "what"),
       ("processing_time_ms", Json.num 12)]) "answer" = Json.str "ans" ∧
    Json.getField (Json.obj
      [("answer", Json.str "ans"),
       ("sources", Json.arr [Json.obj
         [("document_id", Json.str "u-1"),
          ("document_name", Json.str "contract.pdf"),
          ("page_number", Json.num 2),
          ("relevance_score", Json.num 1)]]),
       ("query", Json.str "what"),
       ("processing_time_ms", Json.num 12)]) "processing_time_ms" =
      Json.num 12 ∧
    ∃ xs, Json.getField (Json.obj
      [("answer", Json.str "ans"),
       ("sources", Json.arr [Json.obj
         [("document_id", Json.str "u-1"),
          ("document_name", Json.str "contract.pdf"),
          ("page_number", Json.num 2),
          ("relevance_score", Json.num 1)]]),
       ("query", Json.str "what"),
       ("processing_time_ms", Json.num 12)]) "sources" = Json.arr xs ∧
      xs.mapM decodeSwiftSource = some
        [{ documentId := "u-1", documentName := "contract.pdf",
           pageNumber := some 2, relevanceScore := 1,
           excerpt := none }] ∧
      ([{ documentId := "u-1", documentName := "contract.pdf",
          pageNumber := some 2, relevanceScore := 1,
          excerpt := none }] : List SwiftSource).length = xs.length :=
  c2_queryResult_decode
    (Json.obj
      [("answer", Json.str "ans"),
       ("sources", Json.arr [Json.obj
         [("document_id", Json.str "u-1"),
          ("document_name", Json.str "contract.pdf"),
          ("page_number", Json.num 2),
          ("relevance_score", Json.num 1)]]),
       ("query", Json.str "what"),
       ("processing_time_ms", Json.num 12)])
    { answer := "ans",
      sources := [{ documentId := "u-1", documentName := "contract.pdf",
                    pageNumber := some 2, relevanceScore := 1,
                    excerpt := none }],
      query := "what", processingTimeMs := 12 }
    rfl

theorem vectorSearch_pairwise (qv : List ℚ) (topK : Nat)
    (docFilter : Option (List Nat)) (store : List IndexedChunk) :
    List.Pairwise searchOrder (vectorSearch qv topK docFilter store) := by
  unfold vectorSearch
  exact List.Pairwise.sublist (List.take_sublist _ _)
    (List.sorted_insertionSort searchOrder _)

theorem vectorSearch_length_le (qv : List ℚ) (topK : Nat)
    (docFilter : Option (List Nat)) (store : List IndexedChunk) :
    (vectorSearch qv topK docFilter store).length ≤ topK := by
  unfold vectorSearch
  simp [List.length_take]

theorem searchOrder_implies_ranking {a b : ChunkRef × ℚ}
    (h : searchOrder a b) :
    b.2 ≤ a.2 ∧ (a.2 = b.2 → a.1.chunkIndex < b.1.chunkIndex ∨
      (a.1.chunkIndex = b.1.chunkIndex ∧ a.1.docId ≤ b.1.docId)) := by
  rcases h with h | ⟨e, h⟩
  · exact ⟨le_of_lt h, fun e => absurd (e ▸ h) (lt_irrefl _)⟩
  · exact ⟨le_of_eq e.symm, fun _ => h⟩

/-- C4: every `VectorIndex.search` result sequence is non-increasing in
similarity score; among equal scores, an earlier result has the lower chunk
index, and on equal chunk indices the lower document ID; and at most `topK`
results are returned. -/
theorem c4_search_ordering (qv : List ℚ) (topK : Nat)
    (docFilter : Option (List Nat)) (store : List IndexedChunk) :
    List.Pairwise (fun a b : ChunkRef × ℚ =>
      b.2 ≤ a.2 ∧ (a.2 = b.2 → a.1.chunkIndex < b.1.chunkIndex ∨
        (a.1.chunkIndex = b.1.chunkIndex ∧ a.1.docId ≤ b.1.docId)))
      (vectorSearch qv topK docFilter store) ∧
    (vectorSearch qv topK docFilter store).length ≤ topK :=
  ⟨(vectorSearch_pairwise qv topK docFilter store).imp
      (fun h => searchOrder_implies_ranking h),
    vectorSearch_length_le qv topK docFilter store⟩

/-- C7 counterexample: with two indexed chunks of equal similarity to the
query, a `top_k = 5` query succeeds with both sources carrying the same
relevance score, so the sources are not ordered strictly descending. -/
theorem c7_counterexample :
    ∃ res, queryCall (fun _ => Except.ok "answer") "q" [1] 5 none
        [IndexedChunk.mk (ChunkRef.mk 1 0) [1] ['a'] none,
         IndexedChunk.mk (ChunkRef.mk 2 0) [1] ['b'] none]
        (fun _ => "doc") 0 = Except.ok res ∧
      res.sources = [SourceRecord.mk 1 "doc" none 1 (some "a"),
                     SourceRecord.mk 2 "doc" none 1 (some "b")] ∧
      ¬ List.Pairwise (fun a b : SourceRecord =>
          b.relevanceScore < a.relevanceScore) res.sources := by
  refine ⟨QueryResultModel.mk "q" "answer"
    [SourceRecord.mk 1 "doc" none 1 (some "a"),
     SourceRecord.mk 2 "doc" none 1 (some "b")] 0, ?_, rfl, ?_⟩
  · have hv : vectorSearch [1] 5 none
        [IndexedChunk.mk (ChunkRef.mk 1 0) [1] ['a'] none,
         IndexedChunk.mk (ChunkRef.mk 2 0) [1] ['b'] none] =
        [(ChunkRef.mk 1 0, 1), (ChunkRef.mk 2 0, 1)] := by
      norm_num [vectorSearch, dotProduct, List.insertionSort,
        List.orderedInsert, searchOrder]
    have hr : retrieve [1] 5 none
        [IndexedChunk.mk (ChunkRef.mk 1 0) [1] ['a'] none,
         IndexedChunk.mk (ChunkRef.mk 2 0) [1] ['b'] none]
        (fun _ => "doc") =
        [SourceRecord.mk 1 "doc" none 1 (some "a"),
         SourceRecord.mk 2 "doc" none 1 (some "b")] := by
      rw [retrieve, hv]
      rfl
    rw [queryCall, hr]
    rfl
  · intro h
    have h1 := (List.pairwise_cons.mp h).1 (SourceRecord.mk 2 "doc" none 1
      (some "b")) (by simp)
    norm_num at h1

/-- C7 (amended): every successful `query` call returns at most `topK`
sources, ordered non-increasingly by relevance score (strictly descending
whenever all scores are distinct, as in scenario C). -/
theorem c7_query_topK (llm : String → Except LlmError String) (q : String)
    (qv : List ℚ) (topK : Nat) (docFilter : Option (List Nat))
    (store : List IndexedChunk) (names : Nat → String) (latencyMs : ℚ)
    (res : QueryResultModel)
    (h : queryCall llm q qv topK docFilter store names latencyMs =
      Except.ok res) :
    res.sources.length ≤ topK ∧
    List.Pairwise (fun a b : SourceRecord =>
      b.relevanceScore ≤ a.relevanceScore) res.sources := by
  unfold queryCall compose at h
  simp only [] at h
  cases hl : llm (if (retrieve qv topK docFilter store names).isEmpty then
      degradedPrompt q
    else standardPrompt q (contextOf (retrieve qv topK docFilter store names)))
    with
  | error e => rw [hl] at h; simp at h
  | ok ans =>
    rw [hl] at h
    simp only [Except.ok.injEq] at h
    subst h
    constructor
    · simpa [retrieve] using vectorSearch_length_le qv topK docFilter store
    · simp only [retrieve, List.pairwise_map]
      exact (vectorSearch_pairwise qv topK docFilter store).imp
        (fun h => (searchOrder_implies_ranking h).1)

/-- C7 witness: a concrete one-chunk query returns at most five sources in
non-increasing score order. -/
theorem c7_witness :
    (QueryResultModel.mk "q" "a" [] 1).sources.length ≤ 5 ∧
    List.Pairwise (fun a b : SourceRecord =>
      b.relevanceScore ≤ a.relevanceScore)
      (QueryResultModel.mk "q" "a" [] 1).sources :=
  c7_query_topK (fun _ => Except.ok "a") "q" [1] 5 none []
    (fun _ => "d") 1 (QueryResultModel.mk "q" "a" [] 1) rfl

/-- C3: ingesting a plain-text document of 4,500 characters with
`chunkSize=1000` and `overlap=200` produces exactly 6 chunks; every chunk but
the last is 1000 characters long, and each chunk's first 200 characters are
exactly its predecessor's last 200 characters; all chunks are indexed and the
document ends `completed`. -/
theorem c3_scenarioA (t : List Char) (h : t.length = 4500) :
    ∃ cs, splitChunks t chunkSizeDefault chunkOverlapDefault =
        Except.ok cs ∧
      ingestPlainText t = (ProcessingStatus.completed, cs) ∧
      cs.length = 6 ∧
      (∀ i (h1 : i < cs.length), i + 1 < cs.length →
        (cs.get ⟨i, h1⟩).length = 1000) ∧
      (∀ i (h1 : i < cs.length) (h2 : i + 1 < cs.length),
        (cs.get ⟨i + 1, h2⟩).take 200 = (cs.get ⟨i, h1⟩).drop 800) := by
  have hp : (0:Nat) < 800 := by norm_num
  have e6 : splitChunksGo t 1000 800 hp 4800 = [] := by
    rw [splitChunksGo]; rw [if_neg (by omega)]
  have e5 : splitChunksGo t 1000 800 hp 4000 =
      (t.drop 4000).take 1000 :: splitChunksGo t 1000 800 hp 4800 := by
    rw [splitChunksGo]; rw [if_pos (by omega)]
  have e4 : splitChunksGo t 1000 800 hp 3200 =
      (t.drop 3200).take 1000 :: splitChunksGo t 1000 800 hp 4000 := by
    rw [splitChunksGo]; rw [if_pos (by omega)]
  have e3 : splitChunksGo t 1000 800 hp 2400 =
      (t.drop 2400).take 1000 :: splitChunksGo t 1000 800 hp 3200 := by
    rw [splitChunksGo]; rw [if_pos (by omega)]
  have e2 : splitChunksGo t 1000 800 hp 1600 =
      (t.drop 1600).take 1000 :: splitChunksGo t 1000 800 hp 2400 := by
    rw [splitChunksGo]; rw [if_pos (by omega)]
  have e1 : splitChunksGo t 1000 800 hp 800 =
      (t.drop 800).take 1000 :: splitChunksGo t 1000 800 hp 1600 := by
    rw [splitChunksGo]; rw [if_pos (by omega)]
  have e0 : splitChunksGo t 1000 800 hp 0 =
      (t.drop 0).take 1000 :: splitChunksGo t 1000 800 hp 800 := by
    rw [splitChunksGo]; rw [if_pos (by omega)]
  have hs : splitChunks t chunkSizeDefault chunkOverlapDefault =
      Except.ok [t.take 1000, (t.drop 800).take 1000,
        (t.drop 1600).take 1000, (t.drop 2400).take 1000,
        (t.drop 3200).take 1000, (t.drop 4000).take 1000] := by
    show splitChunks t 1000 200 = _
    rw [splitChunks]
    rw [dif_pos (by norm_num)]
    norm_num
    rw [e0, e1, e2, e3, e4, e5, e6]
    simp
  refine ⟨[t.take 1000, (t.drop 800).take 1000, (t.drop 1600).take 1000,
    (t.drop 2400).take 1000, (t.drop 3200).take 1000,
    (t.drop 4000).take 1000], hs, ?_, rfl, ?_, ?_⟩
  · unfold ingestPlainText
    rw [hs]
  · intro i h1 h2
    have h3 : i < 5 := by simp at h2; omega
    interval_cases i <;>
      norm_num [List.length_take, List.length_drop, h]
  · intro i h1 h2
    have h3 : i < 5 := by simp at h2; omega
    interval_cases i <;>
      norm_num [List.take_take, List.drop_take, List.drop_drop]

/-- C3 witness: the scenario at the concrete 4,500-character text. -/
theorem c3_witness :
    ∃ cs, splitChunks (List.replicate 4500 'a') chunkSizeDefault
        chunkOverlapDefault = Except.ok cs ∧
      ingestPlainText (List.replicate 4500 'a') =
        (ProcessingStatus.completed, cs) ∧
      cs.length = 6 ∧
      (∀ i (h1 : i < cs.length), i + 1 < cs.length →
        (cs.get ⟨i, h1⟩).length = 1000) ∧
      (∀ i (h1 : i < cs.length) (h2 : i + 1 < cs.length),
        (cs.get ⟨i + 1, h2⟩).take 200 = (cs.get ⟨i, h1⟩).drop 800) :=
  c3_scenarioA (List.replicate 4500 'a') (by rw [List.length_replicate])

theorem head?_dropWhile_not {α : Type} (p : α → Bool) :
    ∀ (l : List α) (c : α), (l.dropWhile p).head? = some c → p c = false
  | [], c, h => by simp [List.dropWhile] at h
  | a :: l, c, h => by
    rw [List.dropWhile_cons] at h
    by_cases hp : p a
    · rw [if_pos hp] at h
      exact head?_dropWhile_not p l c h
    · rw [if_neg hp] at h
      simp only [List.head?_cons, Option.some.injEq] at h
      subst h
      simpa using hp

theorem getLast?_dropWhile_of_ne_nil {α : Type} (p : α → Bool) (l : List α)
    (h : l.dropWhile p ≠ []) : (l.dropWhile p).getLast? = l.getLast? := by
  rcases (List.dropWhile_suffix p : l.dropWhile p <:+ l) with ⟨t, ht⟩
  calc (l.dropWhile p).getLast?
      = (t ++ l.dropWhile p).getLast? :=
        (List.getLast?_append_of_ne_nil t h).symm
    _ = l.getLast? := by rw [ht]

theorem chain'_jsTrim {R : Char → Char → Prop}
    (hsymm : ∀ a b, R a b → R b a) {l : List Char}
    (h : List.Chain' R l) : List.Chain' R (jsTrim l) := by
  unfold jsTrim
  have h1 : List.Chain' R (l.dropWhile jsWhitespaceChar) :=
    h.suffix (List.dropWhile_suffix _)
  have h2 : List.Chain' R (l.dropWhile jsWhitespaceChar).reverse :=
    List.chain'_reverse.mpr (h1.imp (fun a b hab => hsymm a b hab))
  have h3 : List.Chain' R
      ((l.dropWhile jsWhitespaceChar).reverse.dropWhile jsWhitespaceChar) :=
    h2.suffix (List.dropWhile_suffix _)
  exact List.chain'_reverse.mpr (h3.imp (fun a b hab => hsymm a b hab))

theorem chain'_collapseWs :
    ∀ l : List Char, List.Chain' (fun a b =>
      ¬(jsWhitespaceChar a = true ∧ jsWhitespaceChar b = true))
      (collapseWs l)
  | [] => List.chain'_nil
  | c :: rest => by
    have ih := chain'_collapseWs rest
    by_cases hc : jsWhitespaceChar c
    · cases hacc : collapseWs rest with
      | nil =>
        simp only [collapseWs, hacc, hc, if_true]
        exact List.chain'_singleton _
      | cons a tl =>
        by_cases ha : jsWhitespaceChar a
        · simp only [collapseWs, hacc, hc, if_true, ha]
          rw [hacc] at ih
          exact ih
        · simp only [collapseWs, hacc, hc, if_true, ha, if_neg]
          rw [hacc] at ih
          refine List.chain'_cons'.mpr ⟨?_, ih⟩
          intro y hy
          simp only [List.head?_cons, Option.mem_def, Option.some.injEq]
            at hy
          subst hy
          simp [ha]
    · simp only [collapseWs, hc, if_neg]
      refine List.chain'_cons'.mpr ⟨?_, ih⟩
      intro y _
      simp [hc]

theorem jsTrim_head_not_ws {l : List Char} {c : Char}
    (h : (jsTrim l).head? = some c) : jsWhitespaceChar c = false := by
  unfold jsTrim at h
  rw [List.head?_reverse] at h
  have hY : (l.dropWhile jsWhitespaceChar).reverse.dropWhile
      jsWhitespaceChar ≠ [] := by
    intro he
    rw [he] at h
    simp at h
  rw [getLast?_dropWhile_of_ne_nil _ _ hY, List.getLast?_reverse] at h
  exact head?_dropWhile_not _ l c h

theorem jsTrim_getLast_not_ws {l : List Char} {c : Char}
    (h : (jsTrim l).getLast? = some c) : jsWhitespaceChar c = false := by
  unfold jsTrim at h
  rw [List.getLast?_reverse] at h
  exact head?_dropWhile_not _ _ c h

/-- C10: `extractPageText` returns text with no two consecutive whitespace
characters, no leading and no trailing whitespace, and every text node that
contributes to it passed the filter — in particular its parent element is not
a script, style, or noscript element. -/
theorem c10_extractPageText (body : DomNode) :
    List.Chain' (fun a b => ¬(jsWhitespaceChar a = true ∧
      jsWhitespaceChar b = true)) (extractPageText body) ∧
    (∀ c, (extractPageText body).head? = some c →
      jsWhitespaceChar c = false) ∧
    (∀ c, (extractPageText body).getLast? = some c →
      jsWhitespaceChar c = false) ∧
    (∀ p ∈ (domTextNodes "BODY" body).filter
        (fun p => acceptTextNode p.1 p.2),
      bannedParentTags.contains (lowerTag p.1) = false) := by
  have hsymm : ∀ a b : Char,
      (¬(jsWhitespaceChar a = true ∧ jsWhitespaceChar b = true)) →
      ¬(jsWhitespaceChar b = true ∧ jsWhitespaceChar a = true) := by
    intro a b hab h
    exact hab ⟨h.2, h.1⟩
  refine ⟨chain'_jsTrim hsymm (chain'_collapseWs _),
    fun c h => jsTrim_head_not_ws h,
    fun c h => jsTrim_getLast_not_ws h, ?_⟩
  intro p hp
  have hacc := (List.mem_filter.mp hp).2
  simp [acceptTextNode] at hacc
  simpa using hacc.1

/-- C10 witness: on a concrete page body the extracted text starts and ends
with a non-whitespace character. -/
theorem c10_witness :
    jsWhitespaceChar 'h' = false ∧ jsWhitespaceChar 'i' = false :=
  ⟨(c10_extractPageText (DomNode.element "BODY"
      [DomNode.text [' ', 'h', 'i', ' ']])).2.1 'h'
      (by simp only [extractPageText, domTextNodes]; decide),
    (c10_extractPageText (DomNode.element "BODY"
      [DomNode.text [' ', 'h', 'i', ' ']])).2.2.1 'i'
      (by simp only [extractPageText, domTextNodes]; decide)⟩

end LegalDify
